import Mathlib

/-!
Verification of the funding-pipeline triage engine, file
src/triage_and_score.py.  The pandas program is embedded shallowly:
floating-point values are modelled as rationals, timestamps as integer
day numbers, a pandas cell as the type Cell below, and a DataFrame as a
Table, namely a list of rows together with presence flags for the
optional columns whose presence the source tests.  The ambient clock
read on line 47 is passed in as the integer parameter today, following
the design note of the specification.  Original row identity is tracked
by tagging each row with its input position, which is the pandas index
before reset_index renumbers it.  The column-schema effects of the code
are modelled separately by the column-list functions near the end of the
definitions.
-/

namespace Funding

open List

attribute [local semireducible] Rat.mul Rat.add Rat.sub Rat.inv Rat.ofScientific

/-- A cell of the input table: missing, which models both None and a
float NaN, or a string, or a number. -/
inductive Cell where
  | null : Cell
  | str : String → Cell
  | num : ℚ → Cell
deriving DecidableEq

/-- Python str.strip on a list of characters: drop whitespace from both
ends. -/
def stripWS (l : List Char) : List Char :=
  ((l.dropWhile Char.isWhitespace).reverse.dropWhile Char.isWhitespace).reverse

/-- Numeric value of a list of decimal digit characters. -/
def digitsVal (l : List Char) : ℕ :=
  l.foldl (fun n c => 10 * n + (c.toNat - 48)) 0

/-- Python float conversion, on the decimal forms the pipeline data
exercises: optional surrounding whitespace, an optional sign, then
digits with an optional fractional part, at least one digit overall.
Any other string yields none, where float raises ValueError.  Exponent,
infinity, nan and underscore forms are outside the inputs this
specification mentions and are not modelled. -/
def parseFloatQ (s : String) : Option ℚ :=
  let l := stripWS s.data
  let sgn : ℚ := match l with
    | '-' :: _ => -1
    | _ => 1
  let l2 : List Char := match l with
    | '-' :: r => r
    | '+' :: r => r
    | r => r
  let ip := l2.takeWhile Char.isDigit
  let r2 := l2.dropWhile Char.isDigit
  match r2 with
  | [] => if ip.isEmpty then none else some (sgn * (digitsVal ip : ℚ))
  | '.' :: fp =>
      if fp.all Char.isDigit && !(ip.isEmpty && fp.isEmpty) then
        some (sgn * ((digitsVal ip : ℚ) + (digitsVal fp : ℚ) / (10 : ℚ) ^ fp.length))
      else none
  | _ => none

/-- Normalized text of a match cell, source line 14: Python strip, then
removal of every percent sign, then removal of every comma.  Since the
replacement string is empty, each replace call is a character filter. -/
def normText (s : String) : String :=
  String.mk (((stripWS s.data).filter (fun c => decide (c ≠ '%'))).filter
    (fun c => decide (c ≠ ',')))

/-- Test of source line 15: the lowercased text starts with var. -/
def startsWithVar (l : List Char) : Bool :=
  match l.map Char.toLower with
  | 'v' :: 'a' :: 'r' :: _ => true
  | _ => false

/-- Embedding of the helper _parse_match, source lines 6 to 20.  A null
cell models both None and a float NaN, which lines 12 and 13 send to
None.  A numeric cell roundtrips through str and float unchanged.  The
function is total: failure of the float conversion is the none value,
never an exception. -/
def parse_match : Cell → Option ℚ
  | Cell.null => none
  | Cell.num q => some q
  | Cell.str s =>
      let text := normText s
      if text.data.isEmpty || startsWithVar text.data then none
      else parseFloatQ text

/-- Per-element model of pd.to_numeric in coercing mode, line 40: null
stays missing, numbers stay, and a string is parsed as a float, with
unparseable strings becoming missing. -/
def toNumeric : Cell → Option ℚ
  | Cell.null => none
  | Cell.num q => some q
  | Cell.str s => parseFloatQ s

/-- Score coercion of source line 40 for a present column: coercing
numeric conversion followed by fillna with 0. -/
def toNumF0 (c : Cell) : ℚ := (toNumeric c).getD 0

/-- Model of pandas isna on a cell. -/
def isna : Cell → Bool
  | Cell.null => true
  | _ => false

/-- One input row.  The deadline field holds the result of the coercing
pd.to_datetime of line 46 on the Deadline cell, as an integer day
number; an unparseable or missing deadline is none.  The remaining
fields are the raw cells of the columns the engine reads. -/
structure Row where
  relevance : Cell
  eqoreFit : Cell
  easeOfUse : Cell
  deadline : Option Int
  matchPct : Cell
  grantName : Cell
  sponsor : Cell
  link : Cell
deriving DecidableEq

/-- The input table: its rows plus a presence flag for each column whose
presence the source tests on lines 40, 48 and 60 to 62. -/
structure Table where
  hasRelevance : Bool
  hasEqoreFit : Bool
  hasEaseOfUse : Bool
  hasMatch : Bool
  hasGrantName : Bool
  hasSponsor : Bool
  hasLink : Bool
  rows : List Row
deriving DecidableEq

/-- Deadline fatal test of line 56: parsed deadline non-null and
strictly before today, both at day granularity, today being the
normalized current timestamp of line 47. -/
def deadlineFatal (today : Int) : Option Int → Bool
  | some d => decide (d < today)
  | none => false

/-- Match fatal test of line 58: parsed match non-null and at least 33. -/
def matchFatal : Option ℚ → Bool
  | some m => decide ((33 : ℚ) ≤ m)
  | none => false

/-- Missing-critical-column fatal test of lines 60 to 62: for each of
Grant Name, Sponsor and Link, a column that is present in the table but
null in this row.  A wholly absent column contributes nothing. -/
def criticalFatal (t : Table) (r : Row) : Bool :=
  (t.hasGrantName && isna r.grantName) || (t.hasSponsor && isna r.sponsor)
    || (t.hasLink && isna r.link)

/-- MatchNumeric helper of lines 48 to 51: parse the match cell when the
column exists, otherwise null. -/
def matchNumOf (t : Table) (r : Row) : Option ℚ :=
  if t.hasMatch then parse_match r.matchPct else none

/-- A processed row: the dataframe row after lines 39 to 63, holding the
coerced scores, the Weighted Score of line 43, the parsed deadline, the
MatchNumeric helper, the fatal helper of lines 54 to 63, and the
untouched original cells. -/
structure XRow where
  relevance : ℚ
  eqore : ℚ
  ease : ℚ
  wscore : ℚ
  deadline : Option Int
  matchNum : Option ℚ
  fatal : Bool
  matchPct : Cell
  grantName : Cell
  sponsor : Cell
  link : Cell
deriving DecidableEq

/-- Lines 39 to 63 applied to one row. -/
def processRow (today : Int) (t : Table) (r : Row) : XRow :=
  let rel := toNumF0 r.relevance
  let fit := toNumF0 r.eqoreFit
  let ease := toNumF0 r.easeOfUse
  let mn := matchNumOf t r
  let fat := deadlineFatal today r.deadline || matchFatal mn || criticalFatal t r
  ⟨rel, fit, ease, rel * fit * (ease / 5), r.deadline, mn, fat,
    r.matchPct, r.grantName, r.sponsor, r.link⟩

/-- The processed table with original row positions attached.  Position
i of the enumeration is the pandas index of row i, used below as row
identity. -/
def processed (today : Int) (t : Table) : List (ℕ × XRow) :=
  t.rows.enum.map (fun p => (p.1, processRow today t p.2))

/-- Relevance-zero test of line 66 on a processed row. -/
def relZeroP (p : ℕ × XRow) : Bool := decide (p.2.relevance = 0)

/-- Candidate filter of line 69: relevant and not fatal. -/
def candP (p : ℕ × XRow) : Bool := !relZeroP p && !p.2.fatal

/-- Fatal-but-relevant filter of line 79. -/
def fatalP (p : ℕ × XRow) : Bool := !relZeroP p && p.2.fatal

/-- Out-of-scope table of lines 66, 67 and 82, in input order. -/
def oosL (today : Int) (t : Table) : List (ℕ × XRow) :=
  (processed today t).filter relZeroP

/-- Candidate rows of line 69, in input order. -/
def candL (today : Int) (t : Table) : List (ℕ × XRow) :=
  (processed today t).filter candP

/-- Fatal relevant rows of line 79, in input order. -/
def fatalRelL (today : Int) (t : Table) : List (ℕ × XRow) :=
  (processed today t).filter fatalP

/-- Sort comparison of line 70: Weighted Score, ascending direction. -/
def wle (p q : ℕ × XRow) : Prop := p.2.wscore ≤ q.2.wscore

instance : DecidableRel wle :=
  fun p q => inferInstanceAs (Decidable (p.2.wscore ≤ q.2.wscore))

instance : IsTotal (ℕ × XRow) wle := ⟨fun p q => le_total p.2.wscore q.2.wscore⟩

instance : IsTrans (ℕ × XRow) wle := ⟨fun _ _ _ h h2 => le_trans h h2⟩

/-- Line 70, sort_values on Weighted Score with ascending false.  For a
descending sort pandas nargsort first reverses the value array and the
index array, computes an ascending argsort (stable at these sizes:
numpy runs insertion sort on small arrays), and then reverses the
resulting indexer.  The two reversals cancel on tied keys, so the
descending sort keeps rows with equal Weighted Score in their input
order.  The model is therefore a stable ascending insertion sort of
the reversed list, reversed. -/
def sortDesc (l : List (ℕ × XRow)) : List (ℕ × XRow) :=
  (List.insertionSort wle l.reverse).reverse

/-- Sorted candidates of line 70. -/
def sortedCand (today : Int) (t : Table) : List (ℕ × XRow) :=
  sortDesc (candL today t)

/-- Clean table of line 72 before ranking: the first twenty sorted
candidates. -/
def cleanL (today : Int) (t : Table) : List (ℕ × XRow) :=
  (sortedCand today t).take 20

/-- Overflow candidates of line 78. -/
def extraL (today : Int) (t : Table) : List (ℕ × XRow) :=
  (sortedCand today t).drop 20

/-- Dirty table of line 80: overflow candidates then fatal relevant
rows, each block in its own order. -/
def dirtyL (today : Int) (t : Table) : List (ℕ × XRow) :=
  extraL today t ++ fatalRelL today t

/-- Rank assignment of lines 73 to 75: clean rows paired with ranks one
up to the clean length, in sorted order.  The placement of Rank as the
first column is part of the column-schema model below. -/
def rankedClean (today : Int) (t : Table) : List (ℕ × ℕ × XRow) :=
  (cleanL today t).enum.map (fun p => (p.1 + 1, p.2))

/-- The function triage_and_score of lines 23 to 90.  When one of the
three score columns is absent, line 40 calls fillna on the scalar NaN
that pd.to_numeric returns for the None result of df.get, and the call
dies with AttributeError; that is the error case here.  Otherwise the
Clean, Dirty and Out-of-Scope tables are returned.  Helper-column
removal on lines 84 to 88 is a column-schema operation modelled by the
column functions below. -/
def triage_and_score (today : Int) (t : Table) :
    Except String (List (ℕ × XRow) × List (ℕ × XRow) × List (ℕ × XRow)) :=
  if t.hasRelevance && t.hasEqoreFit && t.hasEaseOfUse then
    Except.ok (cleanL today t, dirtyL today t, oosL today t)
  else Except.error "AttributeError"

/-- Column assignment: pandas keeps the position of an existing column
and appends a new one at the right end. -/
def addCol (l : List String) (c : String) : List String :=
  if c ∈ l then l else l ++ [c]

/-- Column deletion of lines 86 to 88: the source guards del with a
membership test, so this is removal of every occurrence. -/
def delCol (l : List String) (c : String) : List String :=
  l.filter (fun x => decide (x ≠ c))

/-- Column list after lines 36 to 63, for an input whose three score
columns are present, in which case line 40 leaves the column list
unchanged: Weighted Score, Deadline, MatchNumeric and fatal are
assigned in that order. -/
def processedCols (l : List String) : List String :=
  addCol (addCol (addCol (addCol l "Weighted Score") "Deadline") "MatchNumeric") "fatal"

/-- Column list of the returned Clean table: lines 73 to 75 assign Rank
and move it to the front, lines 84 to 88 delete fatal and
MatchNumeric. -/
def cleanCols (l : List String) : List String :=
  delCol (delCol (List.cons "Rank"
    ((addCol (processedCols l) "Rank").filter (fun c => decide (c ≠ "Rank"))))
    "fatal") "MatchNumeric"

/-- Column list of the returned Dirty table: the concatenation on line
80 joins two frames of equal schema, then lines 84 to 88 delete the
helpers. -/
def dirtyCols (l : List String) : List String :=
  delCol (delCol (processedCols l) "fatal") "MatchNumeric"

/-- Column list of the returned Out-of-Scope table. -/
def oosCols (l : List String) : List String :=
  delCol (delCol (processedCols l) "fatal") "MatchNumeric"

/-- Zero-based position of the first occurrence of an element in a
list, used to state the rank position of a candidate in the sorted
order. -/
def idxOf {α : Type} [DecidableEq α] (a : α) : List α → ℕ
  | [] => 0
  | b :: l => if a = b then 0 else idxOf a l + 1

/-! Concrete tables used by the witnesses and counterexamples. -/

/-- Scenario A row of the specification: scores 5, 4, 5, a future
deadline, twenty percent match, and all critical fields present. -/
def rowA : Row :=
  ⟨Cell.num 5, Cell.num 4, Cell.num 5, some 1, Cell.str "20%",
    Cell.str "X", Cell.str "Y", Cell.str "Z"⟩

/-- A row with zero relevance. -/
def rowZ : Row :=
  ⟨Cell.num 0, Cell.num 4, Cell.num 5, none, Cell.null,
    Cell.str "A", Cell.str "B", Cell.str "C"⟩

/-- A relevant row that is fatal through a forty percent match. -/
def rowF : Row :=
  ⟨Cell.num 3, Cell.num 3, Cell.num 5, none, Cell.str "40%",
    Cell.str "A", Cell.str "B", Cell.str "C"⟩

/-- A three-row table with all columns present: one clean candidate, one
out-of-scope row, one fatal relevant row. -/
def tblW : Table := ⟨true, true, true, true, true, true, true, [rowA, rowZ, rowF]⟩

/-- A single-row table holding the Scenario A row. -/
def tblA : Table := ⟨true, true, true, true, true, true, true, [rowA]⟩

/-- A table whose Relevance column is wholly absent. -/
def tblNoRel : Table := ⟨false, true, true, true, true, true, true, [rowA]⟩

/-! Helper lemmas about the partition pipeline. -/

theorem processed_map_fst (today : Int) (t : Table) :
    (processed today t).map Prod.fst = List.range t.rows.length := by
  unfold processed
  rw [List.map_map]
  have hcomp : (Prod.fst ∘ fun p : ℕ × Row => (p.1, processRow today t p.2)) = Prod.fst := by
    funext p
    rfl
  rw [hcomp, List.enum_map_fst]

theorem processed_nodup (today : Int) (t : Table) : (processed today t).Nodup := by
  have h : ((processed today t).map Prod.fst).Nodup := by
    rw [processed_map_fst]
    exact List.nodup_range _
  exact h.of_map Prod.fst

theorem processed_pairwise_fst (today : Int) (t : Table) :
    (processed today t).Pairwise (fun p q => p.1 < q.1) := by
  have h : ((processed today t).map Prod.fst).Pairwise (fun a b => a < b) := by
    rw [processed_map_fst]
    exact List.pairwise_lt_range t.rows.length
  exact (List.pairwise_map.mp h)

theorem sortedCand_perm (today : Int) (t : Table) :
    List.Perm (sortedCand today t) (candL today t) := by
  unfold sortedCand sortDesc
  exact (List.reverse_perm _).trans
    ((List.perm_insertionSort wle _).trans (List.reverse_perm _))

theorem sortedCand_nodup (today : Int) (t : Table) : (sortedCand today t).Nodup := by
  exact ((sortedCand_perm today t).nodup_iff).mpr
    ((processed_nodup today t).filter candP)

/-- The three raw filters of lines 66 to 79 partition any row list. -/
theorem filter_three_perm (l : List (ℕ × XRow)) :
    List.Perm (l.filter candP ++ (l.filter fatalP ++ l.filter relZeroP)) l := by
  induction l with
  | nil => simp
  | cons x xs ih =>
    by_cases h0 : relZeroP x
    · have hc : candP x = false := by simp [candP, h0]
      have hf : fatalP x = false := by simp [fatalP, h0]
      simp only [List.filter_cons, h0, hc, hf, if_true, if_false, Bool.false_eq_true,
        ite_true, ite_false]
      calc xs.filter candP ++ (xs.filter fatalP ++ x :: xs.filter relZeroP)
          = (xs.filter candP ++ xs.filter fatalP) ++ x :: xs.filter relZeroP := by
            rw [List.append_assoc]
        _ ~ x :: ((xs.filter candP ++ xs.filter fatalP) ++ xs.filter relZeroP) :=
            List.perm_middle
        _ = x :: (xs.filter candP ++ (xs.filter fatalP ++ xs.filter relZeroP)) := by
            rw [List.append_assoc]
        _ ~ x :: xs := ih.cons x
    · by_cases hf : x.2.fatal
      · have hc : candP x = false := by simp [candP, hf]
        have hfp : fatalP x = true := by simp [fatalP, h0, hf]
        simp only [List.filter_cons, h0, hc, hfp, Bool.false_eq_true, ite_true, ite_false]
        calc xs.filter candP ++ (x :: xs.filter fatalP ++ xs.filter relZeroP)
            = xs.filter candP ++ x :: (xs.filter fatalP ++ xs.filter relZeroP) := rfl
          _ ~ x :: (xs.filter candP ++ (xs.filter fatalP ++ xs.filter relZeroP)) :=
              List.perm_middle
          _ ~ x :: xs := ih.cons x
      · have hc : candP x = true := by simp [candP, h0, hf]
        have hfp : fatalP x = false := by simp [fatalP, hf]
        simp only [List.filter_cons, h0, hc, hfp, Bool.false_eq_true, ite_true, ite_false]
        exact ih.cons x

theorem clean_dirty_append (today : Int) (t : Table) :
    cleanL today t ++ dirtyL today t = sortedCand today t ++ fatalRelL today t := by
  unfold cleanL dirtyL extraL
  rw [← List.append_assoc, List.take_append_drop]

/-- The three returned tables are a permutation of the processed input. -/
theorem triple_perm (today : Int) (t : Table) :
    List.Perm (cleanL today t ++ (dirtyL today t ++ oosL today t)) (processed today t) := by
  calc cleanL today t ++ (dirtyL today t ++ oosL today t)
      = (cleanL today t ++ dirtyL today t) ++ oosL today t := by rw [List.append_assoc]
    _ = (sortedCand today t ++ fatalRelL today t) ++ oosL today t := by
        rw [clean_dirty_append]
    _ ~ (candL today t ++ fatalRelL today t) ++ oosL today t :=
        ((sortedCand_perm today t).append_right _).append_right _
    _ = candL today t ++ (fatalRelL today t ++ oosL today t) := by
        rw [List.append_assoc]
    _ ~ processed today t := filter_three_perm _

theorem triple_nodup (today : Int) (t : Table) :
    (cleanL today t ++ (dirtyL today t ++ oosL today t)).Nodup :=
  ((triple_perm today t).nodup_iff).mpr (processed_nodup today t)

/-- Ok-destructor for the returned triple. -/
theorem triage_eq_ok {today : Int} {t : Table}
    {c d o : List (ℕ × XRow)}
    (h : triage_and_score today t = Except.ok (c, d, o)) :
    c = cleanL today t ∧ d = dirtyL today t ∧ o = oosL today t := by
  unfold triage_and_score at h
  by_cases hcols : (t.hasRelevance && t.hasEqoreFit && t.hasEaseOfUse) = true
  · rw [if_pos hcols] at h
    have h2 := Except.ok.inj h
    refine ⟨(congrArg (fun q => q.1) h2).symm, (congrArg (fun q => q.2.1) h2).symm,
      (congrArg (fun q => q.2.2) h2).symm⟩
  · rw [if_neg hcols] at h
    exact absurd h (by simp)

/-! Membership helpers. -/

theorem mem_clean_candP {today : Int} {t : Table} {p : ℕ × XRow}
    (h : p ∈ cleanL today t) : candP p = true :=
  List.of_mem_filter ((sortedCand_perm today t).subset (List.take_subset 20 _ h))

theorem mem_clean_processed {today : Int} {t : Table} {p : ℕ × XRow}
    (h : p ∈ cleanL today t) : p ∈ processed today t :=
  List.mem_of_mem_filter ((sortedCand_perm today t).subset (List.take_subset 20 _ h))

theorem mem_extra_candP {today : Int} {t : Table} {p : ℕ × XRow}
    (h : p ∈ extraL today t) : candP p = true :=
  List.of_mem_filter ((sortedCand_perm today t).subset (List.drop_subset 20 _ h))

theorem mem_fatalRel_fatalP {today : Int} {t : Table} {p : ℕ × XRow}
    (h : p ∈ fatalRelL today t) : fatalP p = true :=
  List.of_mem_filter h

theorem mem_oos_relZeroP {today : Int} {t : Table} {p : ℕ × XRow}
    (h : p ∈ oosL today t) : relZeroP p = true :=
  List.of_mem_filter h

theorem mem_take_iff_idxOf {α : Type} [DecidableEq α] :
    ∀ (l : List α) (a : α), a ∈ l → ∀ n : ℕ, (a ∈ l.take n ↔ idxOf a l < n) := by
  intro l
  induction l with
  | nil => intro a ha; cases ha
  | cons b tl ih =>
    intro a ha n
    by_cases hab : a = b
    · subst hab
      cases n with
      | zero => simp
      | succ m => simp [idxOf]
    · have ha2 : a ∈ tl := by
        rcases List.mem_cons.mp ha with h | h
        · exact absurd h hab
        · exact h
      cases n with
      | zero => simp
      | succ m =>
        rw [List.take_succ_cons, List.mem_cons]
        simp only [idxOf, hab, if_false, false_or, ite_false]
        rw [ih a ha2 m]
        exact (Nat.succ_lt_succ_iff).symm

theorem mem_drop_iff_idxOf {α : Type} [DecidableEq α] {l : List α}
    (hnd : l.Nodup) {a : α} (ha : a ∈ l) (n : ℕ) :
    a ∈ l.drop n ↔ n ≤ idxOf a l := by
  have hsplit : a ∈ l.take n ∨ a ∈ l.drop n := by
    rw [← List.mem_append, List.take_append_drop]
    exact ha
  have hdisj : List.Disjoint (l.take n) (l.drop n) :=
    List.disjoint_take_drop hnd (le_refl n)
  constructor
  · intro h
    by_contra hle
    push_neg at hle
    exact hdisj ((mem_take_iff_idxOf l a ha n).mpr hle) h
  · intro h
    rcases hsplit with htake | hdrop
    · have := (mem_take_iff_idxOf l a ha n).mp htake
      omega
    · exact hdrop

theorem mem_extra_processed {today : Int} {t : Table} {p : ℕ × XRow}
    (h : p ∈ extraL today t) : p ∈ processed today t :=
  List.mem_of_mem_filter ((sortedCand_perm today t).subset (List.drop_subset 20 _ h))

theorem mem_fatalRel_processed {today : Int} {t : Table} {p : ℕ × XRow}
    (h : p ∈ fatalRelL today t) : p ∈ processed today t :=
  List.mem_of_mem_filter h

theorem mem_oos_processed {today : Int} {t : Table} {p : ℕ × XRow}
    (h : p ∈ oosL today t) : p ∈ processed today t :=
  List.mem_of_mem_filter h

theorem mem_dirty_processed {today : Int} {t : Table} {p : ℕ × XRow}
    (h : p ∈ dirtyL today t) : p ∈ processed today t := by
  unfold dirtyL at h
  rcases List.mem_append.mp h with hm | hm
  · exact mem_extra_processed hm
  · exact mem_fatalRel_processed hm

/-- Every processed row carries the Weighted Score formula of line 43. -/
theorem mem_processed_wscore {today : Int} {t : Table} {p : ℕ × XRow}
    (hp : p ∈ processed today t) :
    p.2.wscore = p.2.relevance * p.2.eqore * (p.2.ease / 5) := by
  rcases List.mem_map.mp hp with ⟨q, _, rfl⟩
  rfl

/-! Claim theorems. -/

/-- Claim C5: the match-percentage parser sends the inputs 30 percent,
30 and 30.0 to the number 30, sends Var, Var dot, the empty string and
null to null, any var-prefixed normalized text to null, and any other
string whose float conversion fails to null, never raising; a row whose
parsed match percentage is non-null and at least 33 is fatal, and a
null parsed match percentage contributes nothing to the fatal flag. -/
theorem C5_parse_match_spec :
    (parse_match (Cell.str "30%") = some 30 ∧
      parse_match (Cell.str "30") = some 30 ∧
      parse_match (Cell.str "30.0") = some 30 ∧
      parse_match (Cell.str "Var") = none ∧
      parse_match (Cell.str "Var.") = none ∧
      parse_match (Cell.str "") = none ∧
      parse_match Cell.null = none) ∧
    (∀ s : String, startsWithVar (normText s).data = true →
      parse_match (Cell.str s) = none) ∧
    (∀ s : String, parseFloatQ (normText s) = none →
      parse_match (Cell.str s) = none) ∧
    (∀ (today : Int) (t : Table) (r : Row) (m : ℚ),
      matchNumOf t r = some m → 33 ≤ m → (processRow today t r).fatal = true) ∧
    (∀ (today : Int) (t : Table) (r : Row), matchNumOf t r = none →
      (processRow today t r).fatal =
        (deadlineFatal today r.deadline || criticalFatal t r)) := by
  refine ⟨by refine ⟨?_, ?_, ?_, ?_, ?_, ?_, ?_⟩ <;> decide, ?_, ?_, ?_, ?_⟩
  · intro s h
    simp [parse_match, h]
  · intro s h
    by_cases hc : ((normText s).data.isEmpty || startsWithVar (normText s).data) = true
    · simp [parse_match, hc]
    · simp [parse_match, hc, h]
  · intro today t r m hm h33
    simp [processRow, hm, matchFatal, decide_eq_true h33]
  · intro today t r hm
    simp [processRow, hm, matchFatal]

/-- Claim C5 witness: the forty percent match row is fatal, and a
non-numeric match string parses to null. -/
theorem C5_parse_match_spec_witness :
    (processRow 0 tblW rowF).fatal = true ∧ parse_match (Cell.str "N/A") = none := by
  constructor
  · exact C5_parse_match_spec.2.2.2.1 0 tblW rowF 40 (by decide) (by decide)
  · exact C5_parse_match_spec.2.2.1 "N/A" (by decide)

/-- Claim C6: the deadline fatal flaw is the strict day-granularity
comparison of the parsed deadline with today; a deadline equal to today
is not fatal, a deadline one day earlier is fatal, a null deadline is
never fatal on that basis, and the fatal flag of a processed row
decomposes as deadline flaw or match flaw or critical-field flaw. -/
theorem C6_deadline_boundary :
    (∀ today d : Int, deadlineFatal today (some d) = decide (d < today)) ∧
    (∀ today : Int, deadlineFatal today (some today) = false) ∧
    (∀ today : Int, deadlineFatal today (some (today - 1)) = true) ∧
    (∀ today : Int, deadlineFatal today none = false) ∧
    (∀ (today : Int) (t : Table) (r : Row),
      (processRow today t r).fatal =
        (deadlineFatal today r.deadline || matchFatal (matchNumOf t r)
          || criticalFatal t r)) := by
  refine ⟨fun today d => rfl, ?_, ?_, fun today => rfl, fun today t r => rfl⟩
  · intro today
    simp [deadlineFatal]
  · intro today
    simp [deadlineFatal]

/-- Claim C1: the three returned tables partition the input: their
lengths sum to the input length, their concatenation is a permutation
of the processed input rows, every input row lands in one of the three
tables, and the tables are pairwise disjoint by original row
identity. -/
theorem C1_partition (today : Int) (t : Table)
    (c d o : List (ℕ × XRow))
    (h : triage_and_score today t = Except.ok (c, d, o)) :
    c.length + d.length + o.length = t.rows.length ∧
    (c ++ (d ++ o)) ~ processed today t ∧
    (∀ p ∈ processed today t, p ∈ c ∨ p ∈ d ∨ p ∈ o) ∧
    c.Disjoint d ∧ c.Disjoint o ∧ d.Disjoint o := by
  obtain ⟨hc, hd, ho⟩ := triage_eq_ok h
  subst hc
  subst hd
  subst ho
  have hperm := triple_perm today t
  have hnd := triple_nodup today t
  refine ⟨?_, hperm, ?_, ?_⟩
  · have hlen := hperm.length_eq
    simp only [List.length_append] at hlen
    have hplen : (processed today t).length = t.rows.length := by
      simp [processed, List.enum_length]
    omega
  · intro p hp
    have hmem : p ∈ cleanL today t ++ (dirtyL today t ++ oosL today t) :=
      hperm.symm.subset hp
    rcases List.mem_append.mp hmem with hm | hm
    · exact Or.inl hm
    · rcases List.mem_append.mp hm with hm2 | hm2
      · exact Or.inr (Or.inl hm2)
      · exact Or.inr (Or.inr hm2)
  · rw [List.nodup_append] at hnd
    obtain ⟨h1, h2, h3⟩ := hnd
    rw [List.nodup_append] at h2
    obtain ⟨h4, h5, h6⟩ := h2
    rw [List.disjoint_append_right] at h3
    exact ⟨h3.1, h3.2, h6⟩

/-- Claim C1 witness: the partition equalities at the concrete
three-row table. -/
theorem C1_partition_witness :
    (cleanL 0 tblW).length + (dirtyL 0 tblW).length + (oosL 0 tblW).length
        = tblW.rows.length ∧
    (cleanL 0 tblW ++ (dirtyL 0 tblW ++ oosL 0 tblW)) ~ processed 0 tblW ∧
    (∀ p ∈ processed 0 tblW,
      p ∈ cleanL 0 tblW ∨ p ∈ dirtyL 0 tblW ∨ p ∈ oosL 0 tblW) ∧
    (cleanL 0 tblW).Disjoint (dirtyL 0 tblW) ∧
    (cleanL 0 tblW).Disjoint (oosL 0 tblW) ∧
    (dirtyL 0 tblW).Disjoint (oosL 0 tblW) :=
  C1_partition 0 tblW (cleanL 0 tblW) (dirtyL 0 tblW) (oosL 0 tblW) rfl

/-- Claim C2: a row whose coerced Relevance is zero lands in
Out-of-Scope and in neither Clean nor Dirty, whatever its other fields
and its fatal flag. -/
theorem C2_relevance_zero (today : Int) (t : Table)
    (c d o : List (ℕ × XRow))
    (h : triage_and_score today t = Except.ok (c, d, o))
    (p : ℕ × XRow) (hp : p ∈ processed today t) (h0 : p.2.relevance = 0) :
    p ∈ o ∧ p ∉ c ∧ p ∉ d := by
  obtain ⟨hc, hd, ho⟩ := triage_eq_ok h
  subst hc
  subst hd
  subst ho
  refine ⟨List.mem_filter.mpr ⟨hp, by simp [relZeroP, h0]⟩, ?_, ?_⟩
  · intro hmem
    have hcand := mem_clean_candP hmem
    simp [candP, relZeroP, h0] at hcand
  · intro hmem
    unfold dirtyL at hmem
    rcases List.mem_append.mp hmem with hm | hm
    · have hcand := mem_extra_candP hm
      simp [candP, relZeroP, h0] at hcand
    · have hfat := mem_fatalRel_fatalP hm
      simp [fatalP, relZeroP, h0] at hfat

/-- Claim C2 witness: the zero-relevance row of the concrete table is
only in Out-of-Scope. -/
theorem C2_relevance_zero_witness :
    (1, processRow 0 tblW rowZ) ∈ oosL 0 tblW ∧
      (1, processRow 0 tblW rowZ) ∉ cleanL 0 tblW ∧
      (1, processRow 0 tblW rowZ) ∉ dirtyL 0 tblW :=
  C2_relevance_zero 0 tblW (cleanL 0 tblW) (dirtyL 0 tblW) (oosL 0 tblW) rfl
    (1, processRow 0 tblW rowZ) (by decide) (by decide)

/-- Claim C10: the Out-of-Scope table is exactly the relevance-zero
filter of the processed input, and its original row positions are
strictly increasing, so input order is preserved. -/
theorem C10_oos_order (today : Int) (t : Table)
    (c d o : List (ℕ × XRow))
    (h : triage_and_score today t = Except.ok (c, d, o)) :
    o = (processed today t).filter relZeroP ∧
    o.Pairwise (fun p q => p.1 < q.1) := by
  obtain ⟨hc, hd, ho⟩ := triage_eq_ok h
  subst hc
  subst hd
  subst ho
  exact ⟨rfl, (processed_pairwise_fst today t).filter relZeroP⟩

/-- Claim C10 witness: order preservation at the concrete table. -/
theorem C10_oos_order_witness :
    oosL 0 tblW = (processed 0 tblW).filter relZeroP ∧
    (oosL 0 tblW).Pairwise (fun p q => p.1 < q.1) :=
  C10_oos_order 0 tblW (cleanL 0 tblW) (dirtyL 0 tblW) (oosL 0 tblW) rfl

/-- Claim C3: a relevant row is in Dirty exactly when it is fatal or
its one-based position among the score-sorted non-fatal candidates
exceeds twenty, and in Clean exactly when it is non-fatal with position
at most twenty; in particular overflow candidates are never dropped. -/
theorem C3_fatal_rank (today : Int) (t : Table)
    (c d o : List (ℕ × XRow))
    (h : triage_and_score today t = Except.ok (c, d, o))
    (p : ℕ × XRow) (hp : p ∈ processed today t) (h0 : ¬p.2.relevance = 0) :
    (p ∈ d ↔ (p.2.fatal = true ∨ 20 < idxOf p (sortedCand today t) + 1)) ∧
    (p ∈ c ↔ (p.2.fatal = false ∧ idxOf p (sortedCand today t) + 1 ≤ 20)) := by
  obtain ⟨hc, hd, ho⟩ := triage_eq_ok h
  subst hc
  subst hd
  subst ho
  by_cases hf : p.2.fatal = true
  · have hmemf : p ∈ fatalRelL today t :=
      List.mem_filter.mpr ⟨hp, by simp [fatalP, relZeroP, h0, hf]⟩
    constructor
    · constructor
      · intro _
        exact Or.inl hf
      · intro _
        unfold dirtyL
        exact List.mem_append.mpr (Or.inr hmemf)
    · constructor
      · intro hmem
        have hcand := mem_clean_candP hmem
        simp [candP, hf] at hcand
      · intro hand
        rw [hf] at hand
        exact absurd hand.1 (by simp)
  · have hmemc : p ∈ candL today t :=
      List.mem_filter.mpr ⟨hp, by simp [candP, relZeroP, h0, hf]⟩
    have hmems : p ∈ sortedCand today t :=
      ((sortedCand_perm today t).mem_iff).mpr hmemc
    have hnd := sortedCand_nodup today t
    have htake := mem_take_iff_idxOf (sortedCand today t) p hmems 20
    have hdrop := mem_drop_iff_idxOf hnd hmems 20
    have hnotf : p ∉ fatalRelL today t := by
      intro hmem
      have hfat := mem_fatalRel_fatalP hmem
      simp [fatalP, hf] at hfat
    constructor
    · constructor
      · intro hmem
        unfold dirtyL at hmem
        rcases List.mem_append.mp hmem with hm | hm
        · unfold extraL at hm
          have hidx := hdrop.mp hm
          right
          omega
        · exact absurd hm hnotf
      · intro hor
        rcases hor with hff | hrank
        · exact absurd hff hf
        · unfold dirtyL
          refine List.mem_append.mpr (Or.inl ?_)
          unfold extraL
          exact hdrop.mpr (by omega)
    · constructor
      · intro hmem
        unfold cleanL at hmem
        have hidx := htake.mp hmem
        refine ⟨by simp at hf; exact hf, by omega⟩
      · intro hand
        unfold cleanL
        exact htake.mpr (by omega)

/-- Claim C3 witness: the clean candidate is in Clean and the fatal row
is in Dirty, through the characterization. -/
theorem C3_fatal_rank_witness :
    ((0, processRow 0 tblW rowA) ∈ cleanL 0 tblW) ∧
      ((2, processRow 0 tblW rowF) ∈ dirtyL 0 tblW) := by
  constructor
  · exact ((C3_fatal_rank 0 tblW (cleanL 0 tblW) (dirtyL 0 tblW) (oosL 0 tblW) rfl
      (0, processRow 0 tblW rowA) (by decide) (by decide)).2).mpr (by decide)
  · exact ((C3_fatal_rank 0 tblW (cleanL 0 tblW) (dirtyL 0 tblW) (oosL 0 tblW) rfl
      (2, processRow 0 tblW rowF) (by decide) (by decide)).1).mpr (Or.inl (by decide))

/-- Claim C4: every row of every returned table carries the persisted
Weighted Score equal to coerced Relevance times coerced EQORE Fit times
coerced Ease of Use over five; and the Scenario A row scores twenty and
is the single Clean row with Rank one. -/
theorem C4_weighted_score (today : Int) (t : Table)
    (c d o : List (ℕ × XRow))
    (h : triage_and_score today t = Except.ok (c, d, o)) :
    (∀ p : ℕ × XRow, p ∈ c ∨ p ∈ d ∨ p ∈ o →
      p.2.wscore = p.2.relevance * p.2.eqore * (p.2.ease / 5)) ∧
    rankedClean 0 tblA = [(1, 0, processRow 0 tblA rowA)] ∧
    (processRow 0 tblA rowA).wscore = 20 := by
  obtain ⟨hc, hd, ho⟩ := triage_eq_ok h
  subst hc
  subst hd
  subst ho
  refine ⟨?_, by decide, by decide⟩
  intro p hp
  rcases hp with hm | hm | hm
  · exact mem_processed_wscore (mem_clean_processed hm)
  · exact mem_processed_wscore (mem_dirty_processed hm)
  · exact mem_processed_wscore (mem_oos_processed hm)

/-- Claim C4 witness: the formula at the concrete clean row. -/
theorem C4_weighted_score_witness :
    (processRow 0 tblW rowA).wscore =
      (processRow 0 tblW rowA).relevance * (processRow 0 tblW rowA).eqore
        * ((processRow 0 tblW rowA).ease / 5) :=
  (C4_weighted_score 0 tblW (cleanL 0 tblW) (dirtyL 0 tblW) (oosL 0 tblW) rfl).1
    (0, processRow 0 tblW rowA) (Or.inl (by decide))

/-- Claim C8 counterexample: on a table whose Relevance column is
wholly absent the call fails, with line 40 calling fillna on a scalar
NaN, instead of coercing the missing scores to zero. -/
theorem C8_absent_column_cex :
    (triage_and_score 0 tblNoRel).isOk = false := by decide

/-- Claim C8 amended: the call succeeds exactly when the three score
columns are present, and for a present column every cell that fails
numeric parsing coerces to zero, no error being raised on a non-numeric
score value. -/
theorem C8_score_normalization_amended :
    (∀ (today : Int) (t : Table),
      (triage_and_score today t).isOk
        = (t.hasRelevance && t.hasEqoreFit && t.hasEaseOfUse)) ∧
    (∀ c : Cell, toNumeric c = none → toNumF0 c = 0) ∧
    toNumF0 Cell.null = 0 := by
  refine ⟨?_, ?_, rfl⟩
  · intro today t
    unfold triage_and_score
    by_cases hc : (t.hasRelevance && t.hasEqoreFit && t.hasEaseOfUse) = true
    · rw [if_pos hc, hc]
      rfl
    · rw [if_neg hc]
      rw [Bool.not_eq_true] at hc
      rw [hc]
      rfl
  · intro c h
    unfold toNumF0
    rw [h]
    rfl

/-- Claim C8 witness: an unparseable score cell coerces to zero. -/
theorem C8_score_normalization_amended_witness :
    toNumF0 (Cell.str "N/A") = 0 :=
  C8_score_normalization_amended.2.1 (Cell.str "N/A") (by decide)

theorem mem_addCol_self (l : List String) (c : String) : c ∈ addCol l c := by
  unfold addCol
  by_cases h : c ∈ l
  · rw [if_pos h]
    exact h
  · rw [if_neg h]
    exact List.mem_append.mpr (Or.inr (List.mem_singleton.mpr rfl))

theorem mem_addCol_of_mem {l : List String} {x : String} (h : x ∈ l) (c : String) :
    x ∈ addCol l c := by
  unfold addCol
  by_cases hc : c ∈ l
  · rw [if_pos hc]
    exact h
  · rw [if_neg hc]
    exact List.mem_append.mpr (Or.inl h)

theorem mem_delCol_iff {l : List String} {x c : String} :
    x ∈ delCol l c ↔ x ∈ l ∧ ¬(x = c) := by
  unfold delCol
  rw [List.mem_filter]
  simp

theorem mem_processedCols_of_mem {l : List String} {x : String} (h : x ∈ l) :
    x ∈ processedCols l :=
  mem_addCol_of_mem (mem_addCol_of_mem (mem_addCol_of_mem (mem_addCol_of_mem h _) _) _) _

theorem ws_mem_processedCols (l : List String) : "Weighted Score" ∈ processedCols l :=
  mem_addCol_of_mem (mem_addCol_of_mem (mem_addCol_of_mem (mem_addCol_self l _) _) _) _

theorem dl_mem_processedCols (l : List String) : "Deadline" ∈ processedCols l :=
  mem_addCol_of_mem (mem_addCol_of_mem (mem_addCol_self _ _) _) _

theorem mem_cleanCols_of_mem {l : List String} {x : String} (hx : x ∈ processedCols l)
    (h1 : ¬(x = "fatal")) (h2 : ¬(x = "MatchNumeric")) : x ∈ cleanCols l := by
  unfold cleanCols
  refine mem_delCol_iff.mpr ⟨mem_delCol_iff.mpr ⟨?_, h1⟩, h2⟩
  by_cases hr : x = "Rank"
  · rw [hr]
    exact List.mem_cons_self _ _
  · exact List.mem_cons_of_mem _
      (List.mem_filter.mpr ⟨mem_addCol_of_mem hx _, by simp [hr]⟩)

theorem mem_dirtyCols_of_mem {l : List String} {x : String} (hx : x ∈ processedCols l)
    (h1 : ¬(x = "fatal")) (h2 : ¬(x = "MatchNumeric")) : x ∈ dirtyCols l :=
  mem_delCol_iff.mpr ⟨mem_delCol_iff.mpr ⟨hx, h1⟩, h2⟩

theorem mem_oosCols_of_mem {l : List String} {x : String} (hx : x ∈ processedCols l)
    (h1 : ¬(x = "fatal")) (h2 : ¬(x = "MatchNumeric")) : x ∈ oosCols l :=
  mem_delCol_iff.mpr ⟨mem_delCol_iff.mpr ⟨hx, h1⟩, h2⟩

/-- Claim C9 counterexample: an input column literally named fatal is
originally present yet missing from the Dirty output schema, so not
every originally-present column is retained while the outputs also
never carry a fatal column. -/
theorem C9_retention_cex :
    "fatal" ∈ (["Relevance", "EQORE Fit", "Ease of Use", "fatal"] : List String) ∧
    "fatal" ∉ dirtyCols ["Relevance", "EQORE Fit", "Ease of Use", "fatal"] := by
  exact ⟨by decide, by decide⟩

/-- Claim C9 amended: no returned table carries a fatal or MatchNumeric
column; Weighted Score and the parsed Deadline are present on all three
outputs; and every originally-present column other than the two helper
names is retained on all three outputs. -/
theorem C9_columns_amended (l : List String)
    (_hR : "Relevance" ∈ l) (_hE : "EQORE Fit" ∈ l) (_hU : "Ease of Use" ∈ l) :
    ("fatal" ∉ cleanCols l ∧ "fatal" ∉ dirtyCols l ∧ "fatal" ∉ oosCols l) ∧
    ("MatchNumeric" ∉ cleanCols l ∧ "MatchNumeric" ∉ dirtyCols l ∧
      "MatchNumeric" ∉ oosCols l) ∧
    ("Weighted Score" ∈ cleanCols l ∧ "Weighted Score" ∈ dirtyCols l ∧
      "Weighted Score" ∈ oosCols l) ∧
    ("Deadline" ∈ cleanCols l ∧ "Deadline" ∈ dirtyCols l ∧
      "Deadline" ∈ oosCols l) ∧
    (∀ x ∈ l, ¬(x = "fatal") → ¬(x = "MatchNumeric") →
      x ∈ cleanCols l ∧ x ∈ dirtyCols l ∧ x ∈ oosCols l) := by
  refine ⟨⟨?_, ?_, ?_⟩, ⟨?_, ?_, ?_⟩, ?_, ?_, ?_⟩
  · intro h
    exact (mem_delCol_iff.mp (mem_delCol_iff.mp h).1).2 rfl
  · intro h
    exact (mem_delCol_iff.mp (mem_delCol_iff.mp h).1).2 rfl
  · intro h
    exact (mem_delCol_iff.mp (mem_delCol_iff.mp h).1).2 rfl
  · intro h
    exact (mem_delCol_iff.mp h).2 rfl
  · intro h
    exact (mem_delCol_iff.mp h).2 rfl
  · intro h
    exact (mem_delCol_iff.mp h).2 rfl
  · exact ⟨mem_cleanCols_of_mem (ws_mem_processedCols l) (by decide) (by decide),
      mem_dirtyCols_of_mem (ws_mem_processedCols l) (by decide) (by decide),
      mem_oosCols_of_mem (ws_mem_processedCols l) (by decide) (by decide)⟩
  · exact ⟨mem_cleanCols_of_mem (dl_mem_processedCols l) (by decide) (by decide),
      mem_dirtyCols_of_mem (dl_mem_processedCols l) (by decide) (by decide),
      mem_oosCols_of_mem (dl_mem_processedCols l) (by decide) (by decide)⟩
  · intro x hx h1 h2
    exact ⟨mem_cleanCols_of_mem (mem_processedCols_of_mem hx) h1 h2,
      mem_dirtyCols_of_mem (mem_processedCols_of_mem hx) h1 h2,
      mem_oosCols_of_mem (mem_processedCols_of_mem hx) h1 h2⟩

/-- Claim C9 witness: concrete schema facts from the amended theorem at
a four-column input. -/
theorem C9_columns_amended_witness :
    "fatal" ∉ cleanCols ["Relevance", "EQORE Fit", "Ease of Use", "Grant Name"] ∧
    "Weighted Score" ∈ dirtyCols ["Relevance", "EQORE Fit", "Ease of Use", "Grant Name"] ∧
    "Grant Name" ∈ cleanCols ["Relevance", "EQORE Fit", "Ease of Use", "Grant Name"] := by
  have h := C9_columns_amended ["Relevance", "EQORE Fit", "Ease of Use", "Grant Name"]
    (by decide) (by decide) (by decide)
  exact ⟨h.1.1, h.2.2.1.2.1,
    (h.2.2.2.2 "Grant Name" (by decide) (by decide) (by decide)).1⟩

end Funding
